import Mathlib

/-!
Verification development for the prometheus-mars agent core.

This file gives a shallow embedding of the agent's core components and proves
properties about them:

* the tool executor (`src/tools/tool-executor.ts`): registry lookup and the
  uniform result envelope for success / unknown tool / tool failure;
* the agentic loop controller (`TaskWorker.agenticLoop` in
  `src/core/task-worker.ts`): the turn-bounded conversation loop, modelled as
  an explicit step function iterated on a fuel counter equal to
  `MAX_AGENT_TURNS`;
* the provider adapters (`src/core/llm-adapter.ts`): the response-parsing
  stage of each adapter, i.e. the pure map from decoded vendor wire data to
  the internal `LLMToolResponse` / `LLMResponse`.  The network call itself
  (`fetch`, HTTP status handling) is outside the embedding; each parse
  function receives the decoded JSON body;
* the adapter factory and the placeholder adapter;
* skill selection (`TaskWorker.selectSkillsForTask`).

Asynchrony in the source is sequential in effect (every `await` is awaited in
program order), so promises become plain values and a rejected tool promise
becomes `Except.error`.  JavaScript strings become `String`, arrays become
`List`, `undefined`/optional fields become `Option`.
-/

/-- Stand-in for a JSON object of named arguments (`Record<string, unknown>`
in the source).  The agent core only ever passes tool inputs through opaquely
(from an adapter's parsed block to `ToolExecutor.execute` to the tool), so the
concrete representation is irrelevant to every property proved below. -/
abbrev ToolInput := List (String × String)

/-- `input_schema` of a tool definition (`src/tools/types.ts`). -/
structure InputSchema where
  properties : List (String × String)
  required : Option (List String)
  deriving DecidableEq

/-- `ToolDefinition` from `src/tools/types.ts`. -/
structure ToolDefinition where
  name : String
  description : String
  input_schema : InputSchema
  deriving DecidableEq

/-- `Tool` from `src/tools/types.ts`: a definition plus an execution function.
`execute` returns a promise of a string that may reject; modelled as
`Except String String` (error message on rejection). -/
structure Tool where
  definition : ToolDefinition
  execute : ToolInput → Except String String

/-- `ToolCall` from `src/tools/types.ts`. -/
structure ToolCall where
  id : String
  name : String
  input : ToolInput
  deriving DecidableEq

/-- `ToolResult` from `src/tools/types.ts`.  `is_error?: boolean` is an
optional field: `none` models the field being absent (the success case). -/
structure ToolResult where
  tool_use_id : String
  content : String
  is_error : Option Bool
  deriving DecidableEq

/-- The `ToolExecutor`'s private `Map<string, Tool>`, modelled as a list of
tools in insertion order (a JS `Map` iterates in insertion order). -/
abbrev ToolExecutor := List Tool

/-- `Map.set` semantics of `ToolExecutor.register`: a name collision replaces
the stored tool in place, otherwise the tool is appended. -/
def ToolExecutor.register (self : ToolExecutor) (tool : Tool) : ToolExecutor :=
  if self.any (fun t => t.definition.name == tool.definition.name) then
    self.map (fun t => if t.definition.name == tool.definition.name then tool else t)
  else
    self ++ [tool]

/-- `ToolExecutor.getDefinitions`. -/
def ToolExecutor.getDefinitions (self : ToolExecutor) : List ToolDefinition :=
  self.map (fun t => t.definition)

/-- `this.tools.get(call.name)`: lookup by tool name. -/
def lookupTool (self : ToolExecutor) (name : String) : Option Tool :=
  self.find? (fun t => t.definition.name == name)

/-- `ToolExecutor.execute` (`src/tools/tool-executor.ts`, lines 22-40).  The
source never throws: an unknown tool name and a rejected tool promise are both
folded into an error-flagged `ToolResult`.  Totality of this Lean function is
the embedding of "never raises". -/
def ToolExecutor.execute (self : ToolExecutor) (call : ToolCall) : ToolResult :=
  match lookupTool self call.name with
  | none =>
      { tool_use_id := call.id
        content := "Unknown tool: " ++ call.name
        is_error := some true }
  | some tool =>
      match tool.execute call.input with
      | Except.ok output => { tool_use_id := call.id, content := output, is_error := none }
      | Except.error msg =>
          { tool_use_id := call.id
            content := "Error: " ++ msg
            is_error := some true }

/-- `ContentBlock` from `src/core/llm-adapter.ts`: a text segment or a
tool-invocation segment. -/
inductive ContentBlock where
  | text (text : String)
  | tool_use (id : String) (name : String) (input : ToolInput)
  deriving DecidableEq

/-- `ToolResultContent` from `src/core/llm-adapter.ts` (the `type:
"tool_result"` tag is carried by the Lean type itself). -/
structure ToolResultContent where
  tool_use_id : String
  content : String
  is_error : Option Bool
  deriving DecidableEq

/-- Conversation roles. -/
inductive Role where
  | user
  | assistant
  deriving DecidableEq

/-- An `LLMMessage`'s content: `string | ContentBlock[] | ToolResultContent[]`. -/
inductive MessageContent where
  | str (s : String)
  | blocks (bs : List ContentBlock)
  | results (rs : List ToolResultContent)
  deriving DecidableEq

/-- `LLMMessage` from `src/core/llm-adapter.ts`. -/
structure LLMMessage where
  role : Role
  content : MessageContent
  deriving DecidableEq

/-- `LLMToolResponse` from `src/core/llm-adapter.ts`.  The source declares
`stopReason` with the union type `"end_turn" | "tool_use" | "max_tokens"`, but
the Anthropic adapter fills it with an unchecked cast of the vendor string, so
the runtime value is an arbitrary string; the embedding uses `String` and the
closed set becomes the predicate `validStopReason`. -/
structure LLMToolResponse where
  content : List ContentBlock
  stopReason : String
  provider : String
  model : String
  tokensUsed : Option Nat
  deriving DecidableEq

/-- `LLMResponse` (simple completion) from `src/core/llm-adapter.ts`. -/
structure LLMResponse where
  content : String
  provider : String
  model : String
  tokensUsed : Option Nat
  deriving DecidableEq

/-- The closed stop-reason set declared by the `LLMToolResponse` interface. -/
def validStopReason (s : String) : Bool :=
  s == "end_turn" || s == "tool_use" || s == "max_tokens"

/-- Decoded `usage` object of an Anthropic response. -/
structure AnthropicUsage where
  input_tokens : Nat
  output_tokens : Nat
  deriving DecidableEq

/-- Decoded JSON body of an Anthropic `completeWithTools` response
(`src/core/llm-adapter.ts`, lines 141-148).  The wire content blocks have the
same shape as the internal ones. -/
structure AnthropicToolWire where
  content : List ContentBlock
  stop_reason : String
  usage : Option AnthropicUsage
  deriving DecidableEq

/-- Response-parsing stage of `AnthropicAdapter.completeWithTools`
(`src/core/llm-adapter.ts`, lines 150-166).  Note that `stop_reason` is passed
through verbatim (`data.stop_reason as LLMToolResponse["stopReason"]` in the
source): no mapping into the closed set and no check of block presence. -/
def anthropicParseToolResponse (model : String) (data : AnthropicToolWire) : LLMToolResponse :=
  { content :=
      data.content.map (fun b =>
        match b with
        | ContentBlock.tool_use id name input => ContentBlock.tool_use id name input
        | ContentBlock.text t => ContentBlock.text t)
    stopReason := data.stop_reason
    provider := "anthropic"
    model := model
    tokensUsed := data.usage.map (fun u => u.input_tokens + u.output_tokens) }

/-- One decoded `tool_calls` entry of an OpenAI response.  The source stores
`function.arguments` as a JSON string and applies `JSON.parse`; the wire model
carries the already-parsed arguments. -/
structure OpenAIToolCallWire where
  id : String
  name : String
  arguments : ToolInput
  deriving DecidableEq

/-- Decoded first choice of an OpenAI `completeWithTools` response.
`content` is `string | null`; `tool_calls` is optional (and may be present
but empty, which is still truthy in the source). -/
structure OpenAIChoiceWire where
  content : Option String
  tool_calls : Option (List OpenAIToolCallWire)
  finish_reason : String
  deriving DecidableEq

/-- Response-parsing stage of `OpenAIAdapter.completeWithTools`
(`src/core/llm-adapter.ts`, lines 299-331), given the first choice of the
decoded body (the source reads `data.choices[0]` unguarded) and the optional
`usage.total_tokens`. -/
def openaiParseToolResponse (model : String) (choice : OpenAIChoiceWire)
    (usage : Option Nat) : LLMToolResponse :=
  let textBlocks : List ContentBlock :=
    match choice.content with
    | some c => if c == "" then [] else [ContentBlock.text c]
    | none => []
  let toolBlocks : List ContentBlock :=
    match choice.tool_calls with
    | some tcs => tcs.map (fun tc => ContentBlock.tool_use tc.id tc.name tc.arguments)
    | none => []
  let stopReason : String :=
    if choice.finish_reason == "tool_calls" || choice.tool_calls.isSome then "tool_use"
    else if choice.finish_reason == "length" then "max_tokens"
    else "end_turn"
  { content := textBlocks ++ toolBlocks
    stopReason := stopReason
    provider := "openai"
    model := model
    tokensUsed := usage }

/-- One decoded part of a Google candidate: a text part or a function call. -/
inductive GooglePartWire where
  | textPart (text : String)
  | functionCall (name : String) (args : ToolInput)
  deriving DecidableEq

/-- Decoded JSON body of a Google `completeWithTools` response
(`src/core/llm-adapter.ts`, lines 438-449). -/
structure GoogleToolWire where
  parts : List GooglePartWire
  finishReason : String
  usageMetadata : Option Nat
  deriving DecidableEq

/-- Response-parsing stage of `GoogleAdapter.completeWithTools`
(`src/core/llm-adapter.ts`, lines 451-476).  The source generates a fresh id
per function call from `Date.now()` and `Math.random()`; the embedding takes
the id supply as the function `genId` of the part's position.  Note that
`finishReason` is ignored entirely: the stop reason is `"tool_use"` exactly
when some part is a function call, and `"end_turn"` otherwise. -/
def googleParseToolResponse (genId : Nat → String) (model : String)
    (data : GoogleToolWire) : LLMToolResponse :=
  let blocks : List ContentBlock :=
    (List.range data.parts.length).zip data.parts |>.map (fun p =>
      match p.2 with
      | GooglePartWire.textPart t => ContentBlock.text t
      | GooglePartWire.functionCall name args => ContentBlock.tool_use (genId p.1) name args)
  let hasToolUse : Bool :=
    data.parts.any (fun p =>
      match p with
      | GooglePartWire.functionCall _ _ => true
      | GooglePartWire.textPart _ => false)
  { content := blocks
    stopReason := if hasToolUse then "tool_use" else "end_turn"
    provider := "google"
    model := model
    tokensUsed := data.usageMetadata }

/-- One decoded choice of an OpenAI simple-completion response; `content`
may be missing/null at runtime (the source guards it with `?.` and `??`). -/
structure OpenAICompleteChoiceWire where
  content : Option String
  deriving DecidableEq

/-- Decoded JSON body of an OpenAI `complete` response. -/
structure OpenAICompleteWire where
  choices : List OpenAICompleteChoiceWire
  usage : Option Nat
  deriving DecidableEq

/-- Response-parsing stage of `OpenAIAdapter.complete`
(`src/core/llm-adapter.ts`, lines 194-205): the source computes
`data.choices[0]?.message?.content ?? ""`, silently producing an empty
completion when the expected fields are missing. -/
def openaiParseComplete (model : String) (data : OpenAICompleteWire) : LLMResponse :=
  { content := ((data.choices.head?).bind (fun c => c.content)).getD ""
    provider := "openai"
    model := model
    tokensUsed := data.usage }

/-- Decoded first candidate of a Google simple-completion response:
`content.parts` may be missing; each part carries a text. -/
structure GoogleCompleteCandidateWire where
  parts : Option (List String)
  deriving DecidableEq

/-- Decoded JSON body of a Google `complete` response. -/
structure GoogleCompleteWire where
  candidates : List GoogleCompleteCandidateWire
  usageMetadata : Option Nat
  deriving DecidableEq

/-- Response-parsing stage of `GoogleAdapter.complete`
(`src/core/llm-adapter.ts`, lines 355-371): the source computes
`data.candidates[0]?.content?.parts?.map((p) => p.text).join("") ?? ""`,
silently producing an empty completion when the expected fields are missing. -/
def googleParseComplete (model : String) (data : GoogleCompleteWire) : LLMResponse :=
  { content :=
      match (data.candidates.head?).bind (fun c => c.parts) with
      | some ps => String.join ps
      | none => ""
    provider := "google"
    model := model
    tokensUsed := data.usageMetadata }

/-- The adapter variant selected by the factory. -/
inductive AdapterKind where
  | anthropic
  | openai
  | google
  | placeholder
  deriving DecidableEq

/-- The `PROVIDERS` record of `src/core/llm-adapter.ts` (lines 510-517). -/
def PROVIDERS (name : String) : Option AdapterKind :=
  if name == "anthropic" then some AdapterKind.anthropic
  else if name == "openai" then some AdapterKind.openai
  else if name == "google" then some AdapterKind.google
  else none

/-- `createLLMAdapter` (`src/core/llm-adapter.ts`, lines 523-544): an empty
API key (the only falsy string) selects the placeholder adapter, as does an
unknown provider name. -/
def createLLMAdapter (provider : String) (apiKey : String) (_model : String) : AdapterKind :=
  if apiKey == "" then AdapterKind.placeholder
  else
    match PROVIDERS provider.toLower with
    | some k => k
    | none => AdapterKind.placeholder

/-- The fixed diagnostic text of the placeholder adapter. -/
def PLACEHOLDER_TEXT : String :=
  "[LLM response placeholder -- configure LLM_API_KEY to enable]"

/-- `PlaceholderAdapter.completeWithTools` (`src/core/llm-adapter.ts`, lines
492-505).  It is a pure function of no inputs beyond logging: no network
endpoint is involved, which the embedding expresses by totality and by the
result being independent of all three arguments. -/
def placeholderCompleteWithTools (_systemPrompt : String) (_messages : List LLMMessage)
    (_tools : List ToolDefinition) : LLMToolResponse :=
  { content := [ContentBlock.text PLACEHOLDER_TEXT]
    stopReason := "end_turn"
    provider := "placeholder"
    model := "none"
    tokensUsed := none }

/-- `PlaceholderAdapter.complete` (`src/core/llm-adapter.ts`, lines 482-490). -/
def placeholderComplete (_systemPrompt : String) (_userPrompt : String) : LLMResponse :=
  { content := PLACEHOLDER_TEXT
    provider := "placeholder"
    model := "none"
    tokensUsed := none }

/-- `MAX_AGENT_TURNS` (`src/core/task-worker.ts`, line 329). -/
def MAX_AGENT_TURNS : Nat := 25

/-- The warning marker appended on budget exhaustion. -/
def WARNING_SUFFIX : String := "\n\n[Warning: Agent reached maximum turns limit]"

/-- The fixed fallback string when the last assistant turn has no text. -/
def NO_ANSWER_FALLBACK : String :=
  "[Agent reached maximum turns without producing a final answer]"

/-- The text segments of a block list, in order
(`.filter(b => b.type === "text").map(b => b.text)`). -/
def textsOfBlocks (bs : List ContentBlock) : List String :=
  bs.filterMap (fun b =>
    match b with
    | ContentBlock.text t => some t
    | ContentBlock.tool_use _ _ _ => none)

/-- The tool invocations of a block list, in emission order
(`.filter(b => b.type === "tool_use")` followed by `{id, name, input}`). -/
def toolCallsOf (bs : List ContentBlock) : List ToolCall :=
  bs.filterMap (fun b =>
    match b with
    | ContentBlock.text _ => none
    | ContentBlock.tool_use id name input => some ⟨id, name, input⟩)

/-- Wrapping of a dispatcher result into conversation content
(`src/core/task-worker.ts`, lines 501-506). -/
def toResultContent (r : ToolResult) : ToolResultContent :=
  { tool_use_id := r.tool_use_id, content := r.content, is_error := r.is_error }

/-- The assistant turn pushed for a provider response. -/
def assistantTurn (bs : List ContentBlock) : LLMMessage :=
  { role := Role.assistant, content := MessageContent.blocks bs }

/-- The single user turn carrying the dispatched tool results of the given
invocations, one result per invocation, in order
(`src/core/task-worker.ts`, lines 486-509). -/
def toolResultsTurn (registry : ToolExecutor) (invs : List ToolCall) : LLMMessage :=
  { role := Role.user
    content := MessageContent.results
      (invs.map (fun c => toResultContent (ToolExecutor.execute registry c))) }

/-- `messages.filter(m => m.role === "assistant").pop()`. -/
def lastAssistant (ms : List LLMMessage) : Option LLMMessage :=
  (ms.filter (fun m => m.role == Role.assistant)).getLast?

/-- The text segments of the most recent assistant turn, `[]` when there is
no assistant turn or its content is not a block list. -/
def lastAssistantTexts (ms : List LLMMessage) : List String :=
  match lastAssistant ms with
  | some m =>
      match m.content with
      | MessageContent.blocks bs => textsOfBlocks bs
      | MessageContent.str _ => []
      | MessageContent.results _ => []
  | none => []

/-- The budget-exhaustion return value (`src/core/task-worker.ts`, lines
512-524): the newline-joined text segments of the most recent assistant turn
plus the warning marker, or the fixed fallback when there are none.  A
conversation whose last assistant content is a plain string fails the
`Array.isArray` guard and also falls through to the fallback. -/
def budgetAnswer (ms : List LLMMessage) : String :=
  match lastAssistant ms with
  | some m =>
      match m.content with
      | MessageContent.blocks bs =>
          let ts := textsOfBlocks bs
          if ts.isEmpty then NO_ANSWER_FALLBACK
          else String.intercalate "\n" ts ++ WARNING_SUFFIX
      | MessageContent.str _ => NO_ANSWER_FALLBACK
      | MessageContent.results _ => NO_ANSWER_FALLBACK
  | none => NO_ANSWER_FALLBACK

/-- Modelled from the spec (section 4.3, transition 4): the terminal output on
budget exhaustion as a function of the text segments of the most recent
assistant turn.  This is the spec-side definition, kept separate so that the
code-side `budgetAnswer` can be proved to refine it. -/
def specBudgetOutput (texts : List String) : String :=
  if texts.isEmpty then NO_ANSWER_FALLBACK
  else String.intercalate "\n" texts ++ WARNING_SUFFIX

/-- The loop's terminal-stop test (`src/core/task-worker.ts`, line 470):
`response.stopReason === "end_turn" || response.stopReason === "max_tokens"`. -/
def isTerminalStop (s : String) : Bool :=
  s == "end_turn" || s == "max_tokens"

/-- A deterministic provider: the response as a function of the conversation
passed to `completeWithTools` (system prompt and tool definitions are fixed
for one loop invocation and absorbed into the function). -/
abbrev Provider := List LLMMessage → LLMToolResponse

/-- The mutable state of one `agenticLoop` invocation: the conversation, the
trace of dispatched tool calls (instrumentation for the dispatch-count
properties), the number of model calls made, and the accumulated token
count. -/
structure LoopState where
  messages : List LLMMessage
  dispatched : List ToolCall
  calls : Nat
  tokens : Nat
  deriving DecidableEq

/-- The two terminal states of the loop: returning from inside the loop body
(`DONE`) versus falling out of the `for` loop (`BUDGET_EXHAUSTED`). -/
inductive TerminalState where
  | done
  | budgetExhausted
  deriving DecidableEq

/-- The outcome of one loop iteration. -/
inductive StepOut where
  | next (s : LoopState)
  | finished (answer : String) (s : LoopState)
  deriving DecidableEq

/-- The state carried by a step outcome. -/
def StepOut.state : StepOut → LoopState
  | StepOut.next s => s
  | StepOut.finished _ s => s

/-- Whether a step outcome terminates the loop. -/
def StepOut.isFinished : StepOut → Bool
  | StepOut.next _ => false
  | StepOut.finished _ _ => true

/-- One iteration of the loop body (`src/core/task-worker.ts`, lines
455-510): call the provider, push the assistant turn, and either return the
newline-joined text segments (when the stop reason is `end_turn` or
`max_tokens`) or dispatch every tool invocation sequentially in emission
order and push the single user turn of results. -/
def loopStep (llm : Provider) (registry : ToolExecutor) (s : LoopState) : StepOut :=
  let response := llm s.messages
  if isTerminalStop response.stopReason then
    StepOut.finished (String.intercalate "\n" (textsOfBlocks response.content))
      { messages := s.messages ++ [assistantTurn response.content]
        dispatched := s.dispatched
        calls := s.calls + 1
        tokens := s.tokens + response.tokensUsed.getD 0 }
  else
    StepOut.next
      { messages := s.messages ++
          [assistantTurn response.content,
           toolResultsTurn registry (toolCallsOf response.content)]
        dispatched := s.dispatched ++ toolCallsOf response.content
        calls := s.calls + 1
        tokens := s.tokens + response.tokensUsed.getD 0 }

/-- The result of a full loop invocation. -/
structure LoopResult where
  answer : String
  messages : List LLMMessage
  dispatched : List ToolCall
  calls : Nat
  tokens : Nat
  terminal : TerminalState
  deriving DecidableEq

/-- The `for (let turn = 0; turn < MAX_AGENT_TURNS; turn++)` loop, with the
remaining turn budget as fuel.  Fuel `0` is the fall-through after the last
iteration: the best-effort budget answer is reconstructed from the
conversation. -/
def runLoop (llm : Provider) (registry : ToolExecutor) : Nat → LoopState → LoopResult
  | 0, s =>
      { answer := budgetAnswer s.messages
        messages := s.messages
        dispatched := s.dispatched
        calls := s.calls
        tokens := s.tokens
        terminal := TerminalState.budgetExhausted }
  | Nat.succ fuel, s =>
      match loopStep llm registry s with
      | StepOut.finished a s1 =>
          { answer := a
            messages := s1.messages
            dispatched := s1.dispatched
            calls := s1.calls
            tokens := s1.tokens
            terminal := TerminalState.done }
      | StepOut.next s1 => runLoop llm registry fuel s1

/-- `TaskWorker.agenticLoop` (`src/core/task-worker.ts`, lines 449-525):
seed the conversation with the single user turn carrying the task prompt and
iterate up to `MAX_AGENT_TURNS` times. -/
def agenticLoop (llm : Provider) (registry : ToolExecutor) (userPrompt : String) : LoopResult :=
  runLoop llm registry MAX_AGENT_TURNS
    { messages := [{ role := Role.user, content := MessageContent.str userPrompt }]
      dispatched := []
      calls := 0
      tokens := 0 }

/-- `SkillMeta` from `src/types.ts`. -/
structure SkillMeta where
  name : String
  version : String
  category : String
  mission : String
  description : String
  tools : List String
  deriving DecidableEq

/-- `Skill` from `src/types.ts`. -/
structure Skill where
  meta : SkillMeta
  instructions : String
  filePath : String
  deriving DecidableEq

/-- `AvailableTask` from `src/channels/spacemars-api.ts`. -/
structure AvailableTask where
  id : String
  title : String
  description : String
  difficulty : String
  missionSlug : String
  rewardMars : Nat
  tags : List String
  deriving DecidableEq

/-- Auxiliary scan for `jsIncludes`: does the needle occur starting at some
position of the haystack? -/
def includesAux (needle : List Char) : List Char → Bool
  | [] => needle.isEmpty
  | c :: rest => needle.isPrefixOf (c :: rest) || includesAux needle rest

/-- JavaScript `String.prototype.includes`: substring containment. -/
def jsIncludes (hay : String) (needle : String) : Bool :=
  includesAux needle.toList hay.toList

/-- JavaScript `new Set(xs)` iterated in insertion order: each element kept
at its first occurrence, later duplicates removed. -/
def dedupFirst : List String → List String
  | [] => []
  | x :: xs => x :: (dedupFirst xs).filter (fun y => !(y == x))

/-- JavaScript `String.prototype.toLowerCase`, modelled character-wise with
`Char.toLower` (the same ASCII lowering `String.toLower` performs, written
structurally). -/
def jsToLower (s : String) : String := String.mk (s.data.map Char.toLower)

/-- Auxiliary splitter for `jsSplitDash`: accumulate the current segment and
start a new one at each separator. -/
def splitOnCharAux (c : Char) : List Char → List Char → List (List Char)
  | [], acc => [acc.reverse]
  | x :: xs, acc =>
      if x == c then acc.reverse :: splitOnCharAux c xs []
      else splitOnCharAux c xs (x :: acc)

/-- JavaScript `name.split("-")` for the single-character separator the
source uses. -/
def jsSplitDash (s : String) : List String :=
  (splitOnCharAux '-' s.data []).map String.mk

/-- The relevance score of one skill against a task's lowercased tags, title
and description (`src/core/task-worker.ts`, lines 572-593).  `taskTags` is
the deduplicated lowercased tag set in insertion order. -/
def scoreSkill (taskTags : List String) (taskTitle : String) (taskDesc : String)
    (skill : Skill) : Nat :=
  let name := jsToLower skill.meta.name
  let category := jsToLower skill.meta.category
  let desc := jsToLower skill.meta.description
  (if taskTags.contains category then 3 else 0) +
  (if taskTags.contains name then 3 else 0) +
  2 * ((jsSplitDash name).filter (fun part => taskTags.contains part)).length +
  (if jsIncludes taskTitle name || jsIncludes taskTitle category then 2 else 0) +
  (if jsIncludes taskDesc name || jsIncludes taskDesc category then 1 else 0) +
  (taskTags.filter (fun tag => jsIncludes desc tag)).length

/-- The score of a skill for a task, with the task's fields prepared exactly
as `selectSkillsForTask` prepares them. -/
def taskScore (task : AvailableTask) (skill : Skill) : Nat :=
  scoreSkill (dedupFirst (task.tags.map jsToLower))
    (jsToLower task.title) (jsToLower task.description) skill

/-- The mission filter of skill selection: the skill applies to `"all"` or to
the task's mission. -/
def missionMatches (task : AvailableTask) (skill : Skill) : Bool :=
  skill.meta.mission == "all" || skill.meta.mission == task.missionSlug

/-- `TaskWorker.selectSkillsForTask` (`src/core/task-worker.ts`, lines
561-598): filter by mission, score, keep strictly positive scores, sort by
score descending (JS `Array.prototype.sort` is stable; `mergeSort` with the
mirrored comparator models it), and take the first two. -/
def selectSkillsForTask (skills : List Skill) (task : AvailableTask) : List Skill :=
  if skills.isEmpty then []
  else
    let scored :=
      ((skills.filter (fun sk => missionMatches task sk)).map
          (fun sk => (sk, taskScore task sk))).filter (fun p => 0 < p.2)
    let sorted := scored.mergeSort (fun a b => decide (b.2 ≤ a.2))
    (sorted.take 2).map (fun p => p.1)

/-- A string mentions another when it contains it verbatim. -/
def mentions (needle : String) (hay : String) : Prop :=
  ∃ pre post, hay = pre ++ needle ++ post

/-- The opposite conversation role. -/
def otherRole : Role → Role
  | Role.user => Role.assistant
  | Role.assistant => Role.user

/-- The role expected at offset `n` when alternation starts at role `r`. -/
def roleAt (r : Role) : Nat → Role
  | 0 => r
  | Nat.succ n => roleAt (otherRole r) n

/-- Strict role alternation of a message list starting at role `r`. -/
def rolesAlternateFrom (r : Role) : List LLMMessage → Bool
  | [] => true
  | m :: ms => m.role == r && rolesAlternateFrom (otherRole r) ms

/-- Every turn carrying tool-result content has the `user` role. -/
def toolResultsAreUserRole (ms : List LLMMessage) : Bool :=
  ms.all (fun m =>
    match m.content with
    | MessageContent.results _ => m.role == Role.user
    | MessageContent.str _ => true
    | MessageContent.blocks _ => true)

/-- A provider stub whose responses carry a tool invocation yet are labelled
`end_turn` (exactly what an Anthropic body with a `tool_use` block and
`stop_reason: "end_turn"` parses to). -/
def endTurnInvocationStub : Provider := fun _ =>
  { content := [ContentBlock.tool_use "inv_1" "echo" [("msg", "hi")]]
    stopReason := "end_turn"
    provider := "stub"
    model := "stub"
    tokensUsed := none }

/-- A provider stub whose responses carry a tool invocation yet are labelled
`max_tokens`. -/
def maxTokensInvocationStub : Provider := fun _ =>
  { content := [ContentBlock.text "partial thought",
                ContentBlock.tool_use "inv_9" "lookup" []]
    stopReason := "max_tokens"
    provider := "stub"
    model := "stub"
    tokensUsed := none }

/-- A provider stub that always reports `tool_use`. -/
def alwaysToolUseStub : Provider := fun _ =>
  { content := [ContentBlock.text "working on it",
                ContentBlock.tool_use "inv_2" "echo" [("msg", "hi")]]
    stopReason := "tool_use"
    provider := "stub"
    model := "stub"
    tokensUsed := some 7 }

/-- The single-text `end_turn` stub of the spec's hello scenario. -/
def helloStub : Provider := fun _ =>
  { content := [ContentBlock.text "Hello."]
    stopReason := "end_turn"
    provider := "stub"
    model := "stub"
    tokensUsed := none }

/-- A stub emitting two invocations in one turn, the second for an
unregistered tool. -/
def twoInvocationStub : Provider := fun _ =>
  { content := [ContentBlock.text "let me check",
                ContentBlock.tool_use "call_a" "echo" [("msg", "hi")],
                ContentBlock.tool_use "call_b" "missing_tool" []]
    stopReason := "tool_use"
    provider := "stub"
    model := "stub"
    tokensUsed := none }

/-- A demo tool that echoes the values of its arguments. -/
def echoTool : Tool :=
  { definition :=
      { name := "echo"
        description := "echo the msg argument"
        input_schema := { properties := [("msg", "string")], required := some ["msg"] } }
    execute := fun input => Except.ok (String.join (input.map (fun p => p.2))) }

/-- A demo tool whose execution always rejects. -/
def brokenTool : Tool :=
  { definition :=
      { name := "broken"
        description := "always fails"
        input_schema := { properties := [], required := none } }
    execute := fun _ => Except.error "boom" }

/-- A demo registry with one working and one failing tool. -/
def demoRegistry : ToolExecutor := [echoTool, brokenTool]

/-- The seeded loop state for a demo task prompt. -/
def demoLoopState : LoopState :=
  { messages := [{ role := Role.user, content := MessageContent.str "demo task" }]
    dispatched := []
    calls := 0
    tokens := 0 }

/-- Anthropic wire body with vendor stop reason `stop_sequence` (a value the
vendor's API does emit) and a pending tool call. -/
def anthropicStopSeqWire : AnthropicToolWire :=
  { content := [ContentBlock.tool_use "toolu_1" "web_search" [("query", "mars")]]
    stop_reason := "stop_sequence"
    usage := none }

/-- Anthropic wire body carrying a pending tool call but labelled `end_turn`. -/
def anthropicEndTurnToolWire : AnthropicToolWire :=
  { content := [ContentBlock.text "using a tool",
                ContentBlock.tool_use "toolu_2" "read_file" []]
    stop_reason := "end_turn"
    usage := some { input_tokens := 10, output_tokens := 5 } }

/-- Conversation invariant at every model-call point of the loop: strict
alternation from `user`, the next expected role is `assistant` (the list ends
with a `user` turn), the first turn is the task prompt, and every turn that
carries tool results has the `user` role. -/
def ConvPre (prompt : String) (ms : List LLMMessage) : Prop :=
  rolesAlternateFrom Role.user ms = true ∧
  roleAt Role.user ms.length = Role.assistant ∧
  ms.head? = some { role := Role.user, content := MessageContent.str prompt } ∧
  toolResultsAreUserRole ms = true

/-- A demo skill applying to every mission. -/
def demoSkill : Skill :=
  { meta :=
      { name := "mission-planning"
        version := "1.0.0"
        category := "planning"
        mission := "all"
        description := "plan missions for settlement"
        tools := [] }
    instructions := "plan carefully"
    filePath := "skills/mission-planning/SKILL.md" }

/-- A demo skill bound to a specific mission and irrelevant to the demo
task. -/
def demoSkill2 : Skill :=
  { meta :=
      { name := "concept-generation"
        version := "1.0.0"
        category := "creative"
        mission := "venus"
        description := "generate concepts"
        tools := [] }
    instructions := "be creative"
    filePath := "skills/concept-generation/SKILL.md" }

/-- The demo skill list. -/
def demoSkills : List Skill := [demoSkill, demoSkill2]

/-- A demo task whose tags match `demoSkill`. -/
def demoTask : AvailableTask :=
  { id := "t1"
    title := "Mission planning for mars"
    description := "We need planning"
    difficulty := "intermediate"
    missionSlug := "mars"
    rewardMars := 5
    tags := ["planning", "mars"] }

theorem execute_tool_use_id (registry : ToolExecutor) (call : ToolCall) :
    (ToolExecutor.execute registry call).tool_use_id = call.id := by
  unfold ToolExecutor.execute
  split
  · rfl
  · split <;> rfl

/-- Claim C5: the dispatcher is total (the embedding of "never raises"): an
unregistered name yields an error-flagged result whose diagnostic mentions
the tool name, a rejected tool execution yields an error-flagged result
carrying the failure's message, a successful execution yields the tool's
output with the error field absent, and in every case the result carries the
request's identifier. -/
theorem execute_total_spec (registry : ToolExecutor) (call : ToolCall) :
    (ToolExecutor.execute registry call).tool_use_id = call.id ∧
    (lookupTool registry call.name = none →
       (ToolExecutor.execute registry call).is_error = some true ∧
       mentions call.name (ToolExecutor.execute registry call).content) ∧
    (∀ tool, lookupTool registry call.name = some tool →
       (∀ out, tool.execute call.input = Except.ok out →
          ToolExecutor.execute registry call =
            { tool_use_id := call.id, content := out, is_error := none }) ∧
       (∀ msg, tool.execute call.input = Except.error msg →
          ToolExecutor.execute registry call =
            { tool_use_id := call.id, content := "Error: " ++ msg, is_error := some true })) := by
  refine ⟨execute_tool_use_id registry call, ?_, ?_⟩
  · intro hnone
    constructor
    · simp only [ToolExecutor.execute, hnone]
    · simp only [ToolExecutor.execute, hnone]
      exact ⟨"Unknown tool: ", "", (String.append_empty _).symm⟩
  · intro tool htool
    constructor
    · intro out hout
      simp only [ToolExecutor.execute, htool, hout]
    · intro msg hmsg
      simp only [ToolExecutor.execute, htool, hmsg]

theorem execute_total_spec_witness :
    ((ToolExecutor.execute [] { id := "id_1", name := "missing_tool", input := [] }).tool_use_id =
        "id_1" ∧
      ((ToolExecutor.execute [] { id := "id_1", name := "missing_tool", input := [] }).is_error =
          some true ∧
        mentions "missing_tool"
          (ToolExecutor.execute [] { id := "id_1", name := "missing_tool", input := [] }).content)) ∧
    ToolExecutor.execute demoRegistry { id := "id_2", name := "echo", input := [("msg", "hi")] } =
      { tool_use_id := "id_2", content := "hi", is_error := none } ∧
    ToolExecutor.execute demoRegistry { id := "id_3", name := "broken", input := [] } =
      { tool_use_id := "id_3", content := "Error: boom", is_error := some true } :=
  ⟨⟨(execute_total_spec [] { id := "id_1", name := "missing_tool", input := [] }).1,
    (execute_total_spec [] { id := "id_1", name := "missing_tool", input := [] }).2.1 rfl⟩,
   ((execute_total_spec demoRegistry
        { id := "id_2", name := "echo", input := [("msg", "hi")] }).2.2 echoTool rfl).1 "hi" rfl,
   ((execute_total_spec demoRegistry
        { id := "id_3", name := "broken", input := [] }).2.2 brokenTool rfl).2 "boom" rfl⟩

/-- Claim C8: with an empty API key the factory selects the placeholder
adapter for every provider name, and the placeholder's tool-mode completion
is a fixed diagnostic text segment with stop reason `end_turn`, independent
of all inputs (the function is pure: no network endpoint is involved). -/
theorem createLLMAdapter_placeholder_spec (provider model systemPrompt : String)
    (messages : List LLMMessage) (tools : List ToolDefinition) :
    createLLMAdapter provider "" model = AdapterKind.placeholder ∧
    placeholderCompleteWithTools systemPrompt messages tools =
      { content := [ContentBlock.text PLACEHOLDER_TEXT]
        stopReason := "end_turn"
        provider := "placeholder"
        model := "none"
        tokensUsed := none } ∧
    validStopReason (placeholderCompleteWithTools systemPrompt messages tools).stopReason =
      true :=
  ⟨rfl, rfl, rfl⟩

/-- Claim C7 (counterexample): an OpenAI body with no `choices` at all — a
malformed response missing the expected fields — parses to the very same
completion as a legitimate response whose content is the empty string: the
adapter silently returns an empty completion instead of failing fast. -/
theorem openai_complete_silent_empty_counterexample :
    openaiParseComplete "gpt" { choices := [], usage := none } =
      openaiParseComplete "gpt" { choices := [{ content := some "" }], usage := none } ∧
    (openaiParseComplete "gpt" { choices := [], usage := none }).content = "" ∧
    (googleParseComplete "gemini" { candidates := [], usageMetadata := none }).content = "" :=
  ⟨rfl, rfl, rfl⟩

/-- Claim C7 (amended): when the expected response fields are missing, the
OpenAI and Google simple-completion parsers do not fail: they return a
normal completion whose content is the empty string, indistinguishable from
a legitimately empty model answer. -/
theorem complete_silent_empty_on_missing_fields (modelA modelB : String)
    (d : OpenAICompleteWire) (g : GoogleCompleteWire)
    (hd : (d.choices.head?).bind (fun c => c.content) = none)
    (hg : (g.candidates.head?).bind (fun c => c.parts) = none) :
    openaiParseComplete modelA d =
      { content := "", provider := "openai", model := modelA, tokensUsed := d.usage } ∧
    googleParseComplete modelB g =
      { content := "", provider := "google", model := modelB, tokensUsed := g.usageMetadata } := by
  constructor
  · unfold openaiParseComplete
    rw [hd]
    rfl
  · unfold googleParseComplete
    rw [hg]

theorem complete_silent_empty_witness :
    (({ choices := [], usage := none } : OpenAICompleteWire).choices.head?.bind
        (fun c => c.content) = none) ∧
    (({ candidates := [], usageMetadata := none } : GoogleCompleteWire).candidates.head?.bind
        (fun c => c.parts) = none) ∧
    (openaiParseComplete "gpt" { choices := [], usage := none } =
        { content := "", provider := "openai", model := "gpt", tokensUsed := none } ∧
      googleParseComplete "gemini" { candidates := [], usageMetadata := none } =
        { content := "", provider := "google", model := "gemini", tokensUsed := none }) :=
  ⟨rfl, rfl, complete_silent_empty_on_missing_fields "gpt" "gemini" _ _ rfl rfl⟩

/-- Claim C6 (code bug, evaluated at the failing input): the Anthropic
adapter passes the vendor stop reason through unvalidated, so a response
with vendor stop reason `stop_sequence` yields a stop reason outside the
declared closed set, and a response carrying a pending tool call but
labelled `end_turn` keeps the `end_turn` label instead of mapping to
`tool_use`. -/
theorem anthropic_stop_reason_unvalidated :
    (anthropicParseToolResponse "claude" anthropicStopSeqWire).stopReason = "stop_sequence" ∧
    validStopReason (anthropicParseToolResponse "claude" anthropicStopSeqWire).stopReason =
      false ∧
    (anthropicParseToolResponse "claude" anthropicEndTurnToolWire).stopReason = "end_turn" ∧
    toolCallsOf (anthropicParseToolResponse "claude" anthropicEndTurnToolWire).content =
      [{ id := "toolu_2", name := "read_file", input := [] }] :=
  ⟨rfl, rfl, rfl, rfl⟩

theorem openai_stop_reason_always_valid (model : String) (choice : OpenAIChoiceWire)
    (usage : Option Nat) :
    validStopReason (openaiParseToolResponse model choice usage).stopReason = true := by
  unfold openaiParseToolResponse
  dsimp only
  split
  · rfl
  · split <;> rfl

theorem google_stop_reason_always_valid (genId : Nat → String) (model : String)
    (data : GoogleToolWire) :
    validStopReason (googleParseToolResponse genId model data).stopReason = true := by
  unfold googleParseToolResponse
  dsimp only
  split <;> rfl

theorem budgetAnswer_eq_spec (ms : List LLMMessage) :
    budgetAnswer ms = specBudgetOutput (lastAssistantTexts ms) := by
  unfold budgetAnswer lastAssistantTexts specBudgetOutput
  cases lastAssistant ms with
  | none => rfl
  | some m =>
      dsimp only
      cases m.content <;> rfl

theorem lastAssistant_append_assistant (ms : List LLMMessage) (bs : List ContentBlock) :
    lastAssistant (ms ++ [assistantTurn bs]) = some (assistantTurn bs) := by
  unfold lastAssistant
  rw [List.filter_append]
  simp [assistantTurn]

theorem lastAssistantTexts_append_assistant (ms : List LLMMessage) (bs : List ContentBlock) :
    lastAssistantTexts (ms ++ [assistantTurn bs]) = textsOfBlocks bs := by
  unfold lastAssistantTexts
  rw [lastAssistant_append_assistant]
  rfl

theorem loopStep_nonterminal (llm : Provider) (registry : ToolExecutor) (s : LoopState)
    (h : isTerminalStop (llm s.messages).stopReason = false) :
    loopStep llm registry s = StepOut.next
      { messages := s.messages ++
          [assistantTurn (llm s.messages).content,
           toolResultsTurn registry (toolCallsOf (llm s.messages).content)]
        dispatched := s.dispatched ++ toolCallsOf (llm s.messages).content
        calls := s.calls + 1
        tokens := s.tokens + (llm s.messages).tokensUsed.getD 0 } := by
  simp [loopStep, h]

theorem loopStep_terminal (llm : Provider) (registry : ToolExecutor) (s : LoopState)
    (h : isTerminalStop (llm s.messages).stopReason = true) :
    loopStep llm registry s = StepOut.finished
      (String.intercalate "\n" (textsOfBlocks (llm s.messages).content))
      { messages := s.messages ++ [assistantTurn (llm s.messages).content]
        dispatched := s.dispatched
        calls := s.calls + 1
        tokens := s.tokens + (llm s.messages).tokensUsed.getD 0 } := by
  simp [loopStep, h]

theorem runLoop_succ_next (llm : Provider) (registry : ToolExecutor) (fuel : Nat)
    (s s1 : LoopState) (h : loopStep llm registry s = StepOut.next s1) :
    runLoop llm registry (fuel + 1) s = runLoop llm registry fuel s1 := by
  conv =>
    lhs
    rw [runLoop]
  rw [h]

theorem runLoop_succ_finished (llm : Provider) (registry : ToolExecutor) (fuel : Nat)
    (s s1 : LoopState) (a : String) (h : loopStep llm registry s = StepOut.finished a s1) :
    runLoop llm registry (fuel + 1) s =
      { answer := a
        messages := s1.messages
        dispatched := s1.dispatched
        calls := s1.calls
        tokens := s1.tokens
        terminal := TerminalState.done } := by
  conv =>
    lhs
    rw [runLoop]
  rw [h]

theorem runLoop_nonterminal (llm : Provider) (registry : ToolExecutor)
    (h : ∀ ms, isTerminalStop (llm ms).stopReason = false) (fuel : Nat) :
    ∀ s : LoopState,
      (runLoop llm registry fuel s).terminal = TerminalState.budgetExhausted ∧
      (runLoop llm registry fuel s).calls = s.calls + fuel ∧
      (runLoop llm registry fuel s).answer =
        budgetAnswer (runLoop llm registry fuel s).messages := by
  induction fuel with
  | zero => intro s; exact ⟨rfl, rfl, rfl⟩
  | succ fuel ih =>
      intro s
      rw [runLoop_succ_next llm registry fuel s _ (loopStep_nonterminal llm registry s (h s.messages))]
      obtain ⟨h1, h2, h3⟩ := ih
        { messages := s.messages ++
            [assistantTurn (llm s.messages).content,
             toolResultsTurn registry (toolCallsOf (llm s.messages).content)]
          dispatched := s.dispatched ++ toolCallsOf (llm s.messages).content
          calls := s.calls + 1
          tokens := s.tokens + (llm s.messages).tokensUsed.getD 0 }
      refine ⟨h1, ?_, h3⟩
      rw [h2]
      show s.calls + 1 + fuel = s.calls + (fuel + 1)
      omega

theorem runLoop_done_answer (llm : Provider) (registry : ToolExecutor) (fuel : Nat) :
    ∀ s : LoopState, (runLoop llm registry fuel s).terminal = TerminalState.done →
      (runLoop llm registry fuel s).answer =
        String.intercalate "\n" (lastAssistantTexts (runLoop llm registry fuel s).messages) := by
  induction fuel with
  | zero =>
      intro s hterm
      exact absurd hterm (by simp [runLoop])
  | succ fuel ih =>
      intro s hterm
      cases hstop : isTerminalStop (llm s.messages).stopReason with
      | true =>
          rw [runLoop_succ_finished llm registry fuel s _ _
            (loopStep_terminal llm registry s hstop)]
          dsimp only
          rw [lastAssistantTexts_append_assistant]
      | false =>
          rw [runLoop_succ_next llm registry fuel s _
            (loopStep_nonterminal llm registry s hstop)] at hterm ⊢
          exact ih _ hterm

/-- Claim C1 (counterexample): a provider response that contains a
tool-invocation segment but is labelled `end_turn` does not make the loop
execute tools: the run dispatches nothing and terminates in the done state
on its first turn.  Segment presence is not authoritative in the code; the
stop-reason label is. -/
theorem invocation_segment_not_authoritative_counterexample :
    toolCallsOf
        (endTurnInvocationStub
          [{ role := Role.user, content := MessageContent.str "task" }]).content =
      [{ id := "inv_1", name := "echo", input := [("msg", "hi")] }] ∧
    (agenticLoop endTurnInvocationStub demoRegistry "task").dispatched = [] ∧
    (agenticLoop endTurnInvocationStub demoRegistry "task").terminal = TerminalState.done :=
  ⟨rfl, rfl, rfl⟩

/-- Claim C1 (amended): the loop's transition to executing tools is decided
by the stop-reason label alone: a step finishes exactly when the label is
`end_turn` or `max_tokens`, and the dispatched invocations of a step are the
response's invocation segments exactly when the label is neither — the
stop-reason label, not segment presence, is authoritative for this
transition. -/
theorem stop_label_authoritative (llm : Provider) (registry : ToolExecutor) (s : LoopState) :
    (loopStep llm registry s).isFinished = isTerminalStop (llm s.messages).stopReason ∧
    (loopStep llm registry s).state.dispatched =
      (if isTerminalStop (llm s.messages).stopReason then s.dispatched
       else s.dispatched ++ toolCallsOf (llm s.messages).content) := by
  cases hstop : isTerminalStop (llm s.messages).stopReason with
  | true =>
      rw [loopStep_terminal llm registry s hstop]
      exact ⟨rfl, rfl⟩
  | false =>
      rw [loopStep_nonterminal llm registry s hstop]
      exact ⟨rfl, rfl⟩

/-- Claim C2: when every provider response reports `tool_use`, the loop makes
exactly 25 model calls (never 26), ends budget-exhausted, and returns the
newline-joined text segments of the most recent assistant turn with the
warning marker appended — or the fixed no-answer fallback when that turn has
no text segments (`specBudgetOutput` is the spec's terminal-output rule). -/
theorem budget_exhausted_at_25 (llm : Provider) (registry : ToolExecutor) (prompt : String)
    (h : ∀ ms, (llm ms).stopReason = "tool_use") :
    (agenticLoop llm registry prompt).terminal = TerminalState.budgetExhausted ∧
    (agenticLoop llm registry prompt).calls = 25 ∧
    (agenticLoop llm registry prompt).answer =
      specBudgetOutput (lastAssistantTexts (agenticLoop llm registry prompt).messages) := by
  have h' : ∀ ms, isTerminalStop (llm ms).stopReason = false := by
    intro ms
    rw [h ms]
    rfl
  obtain ⟨h1, h2, h3⟩ := runLoop_nonterminal llm registry h' MAX_AGENT_TURNS
    { messages := [{ role := Role.user, content := MessageContent.str prompt }]
      dispatched := []
      calls := 0
      tokens := 0 }
  have h2' : (agenticLoop llm registry prompt).calls = 0 + MAX_AGENT_TURNS := h2
  have h3' : (agenticLoop llm registry prompt).answer =
      budgetAnswer (agenticLoop llm registry prompt).messages := h3
  refine ⟨h1, ?_, ?_⟩
  · rw [h2']
    decide
  · rw [h3', budgetAnswer_eq_spec]

theorem budget_exhausted_at_25_witness :
    (∀ ms, (alwaysToolUseStub ms).stopReason = "tool_use") ∧
    ((agenticLoop alwaysToolUseStub demoRegistry "task").terminal =
        TerminalState.budgetExhausted ∧
      (agenticLoop alwaysToolUseStub demoRegistry "task").calls = 25 ∧
      (agenticLoop alwaysToolUseStub demoRegistry "task").answer =
        specBudgetOutput
          (lastAssistantTexts (agenticLoop alwaysToolUseStub demoRegistry "task").messages)) :=
  ⟨fun _ => rfl, budget_exhausted_at_25 alwaysToolUseStub demoRegistry "task" (fun _ => rfl)⟩

/-- Claim C3 (counterexample): an assistant turn containing a tool-invocation
segment but labelled `max_tokens` gets no dispatch at all — the loop returns
immediately instead of performing one dispatch per invocation. -/
theorem dispatch_per_invocation_counterexample :
    toolCallsOf
        (maxTokensInvocationStub
          [{ role := Role.user, content := MessageContent.str "t" }]).content =
      [{ id := "inv_9", name := "lookup", input := [] }] ∧
    (agenticLoop maxTokensInvocationStub demoRegistry "t").dispatched = [] ∧
    (agenticLoop maxTokensInvocationStub demoRegistry "t").calls = 1 :=
  ⟨rfl, rfl, rfl⟩

/-- Claim C3 (amended): for every assistant turn whose response label is
neither `end_turn` nor `max_tokens`, the loop dispatches exactly the
response's invocation segments, in emission order, and appends exactly one
new user turn containing one tool result per invocation — matched by
identifier and in the same order — before the next model call. -/
theorem dispatch_per_invocation (llm : Provider) (registry : ToolExecutor) (s : LoopState)
    (h : isTerminalStop (llm s.messages).stopReason = false) :
    loopStep llm registry s = StepOut.next
      { messages := s.messages ++
          [assistantTurn (llm s.messages).content,
           toolResultsTurn registry (toolCallsOf (llm s.messages).content)]
        dispatched := s.dispatched ++ toolCallsOf (llm s.messages).content
        calls := s.calls + 1
        tokens := s.tokens + (llm s.messages).tokensUsed.getD 0 } ∧
    ((toolCallsOf (llm s.messages).content).map
        (fun c => toResultContent (ToolExecutor.execute registry c))).map
      (fun r => r.tool_use_id) =
      (toolCallsOf (llm s.messages).content).map (fun c => c.id) := by
  refine ⟨loopStep_nonterminal llm registry s h, ?_⟩
  rw [List.map_map]
  exact List.map_congr_left (fun c _ => execute_tool_use_id registry c)

theorem dispatch_per_invocation_witness :
    isTerminalStop (twoInvocationStub demoLoopState.messages).stopReason = false ∧
    (loopStep twoInvocationStub demoRegistry demoLoopState = StepOut.next
        { messages := demoLoopState.messages ++
            [assistantTurn (twoInvocationStub demoLoopState.messages).content,
             toolResultsTurn demoRegistry
               (toolCallsOf (twoInvocationStub demoLoopState.messages).content)]
          dispatched := demoLoopState.dispatched ++
            toolCallsOf (twoInvocationStub demoLoopState.messages).content
          calls := demoLoopState.calls + 1
          tokens := demoLoopState.tokens +
            (twoInvocationStub demoLoopState.messages).tokensUsed.getD 0 } ∧
      ((toolCallsOf (twoInvocationStub demoLoopState.messages).content).map
          (fun c => toResultContent (ToolExecutor.execute demoRegistry c))).map
        (fun r => r.tool_use_id) =
        (toolCallsOf (twoInvocationStub demoLoopState.messages).content).map
          (fun c => c.id)) :=
  ⟨rfl, dispatch_per_invocation twoInvocationStub demoRegistry demoLoopState rfl⟩

/-- Claim C4: whenever the loop terminates in the done state (a stop-reason
label of `end_turn` or `max_tokens`), the returned answer is the
concatenation of the text segments of the last assistant turn, in order,
joined by newlines. -/
theorem done_answer_is_last_assistant_texts (llm : Provider) (registry : ToolExecutor)
    (prompt : String)
    (h : (agenticLoop llm registry prompt).terminal = TerminalState.done) :
    (agenticLoop llm registry prompt).answer =
      String.intercalate "\n" (lastAssistantTexts (agenticLoop llm registry prompt).messages) :=
  runLoop_done_answer llm registry MAX_AGENT_TURNS
    { messages := [{ role := Role.user, content := MessageContent.str prompt }]
      dispatched := []
      calls := 0
      tokens := 0 } h

theorem done_answer_witness :
    (agenticLoop helloStub demoRegistry "Say hello.").terminal = TerminalState.done ∧
    (agenticLoop helloStub demoRegistry "Say hello.").answer =
      String.intercalate "\n"
        (lastAssistantTexts (agenticLoop helloStub demoRegistry "Say hello.").messages) ∧
    (agenticLoop helloStub demoRegistry "Say hello.").answer = "Hello." :=
  ⟨rfl, done_answer_is_last_assistant_texts helloStub demoRegistry "Say hello." rfl, rfl⟩

theorem otherRole_otherRole (r : Role) : otherRole (otherRole r) = r := by
  cases r <;> rfl

theorem roleAt_add_two (r : Role) (n : Nat) : roleAt r (n + 2) = roleAt r n := by
  show roleAt (otherRole (otherRole r)) n = roleAt r n
  rw [otherRole_otherRole]

theorem rolesAlternateFrom_append (ms ns : List LLMMessage) :
    ∀ r : Role, rolesAlternateFrom r (ms ++ ns) =
      (rolesAlternateFrom r ms && rolesAlternateFrom (roleAt r ms.length) ns) := by
  induction ms with
  | nil =>
      intro r
      simp [rolesAlternateFrom, roleAt]
  | cons m t ih =>
      intro r
      show (m.role == r && rolesAlternateFrom (otherRole r) (t ++ ns)) =
        ((m.role == r && rolesAlternateFrom (otherRole r) t) &&
          rolesAlternateFrom (roleAt r (t.length + 1)) ns)
      rw [ih (otherRole r), Bool.and_assoc]
      rfl

theorem rolesAlternateFrom_take (ms : List LLMMessage) :
    ∀ (r : Role) (n : Nat), rolesAlternateFrom r ms = true →
      rolesAlternateFrom r (ms.take n) = true := by
  induction ms with
  | nil =>
      intro r n _
      rw [List.take_nil]
      rfl
  | cons m t ih =>
      intro r n h
      cases n with
      | zero => rfl
      | succ n =>
          rw [List.take_succ_cons]
          rw [show rolesAlternateFrom r (m :: t) =
            (m.role == r && rolesAlternateFrom (otherRole r) t) from rfl,
            Bool.and_eq_true] at h
          show (m.role == r && rolesAlternateFrom (otherRole r) (t.take n)) = true
          rw [Bool.and_eq_true]
          exact ⟨h.1, ih (otherRole r) n h.2⟩

theorem head?_append_of_head? {α : Type} (ms ns : List α) (x : α) (h : ms.head? = some x) :
    (ms ++ ns).head? = some x := by
  cases ms with
  | nil => simp at h
  | cons m t =>
      rw [List.head?_cons] at h
      rw [List.cons_append, List.head?_cons]
      exact h

theorem convPre_append_pair (prompt : String) (registry : ToolExecutor)
    (ms : List LLMMessage) (bs : List ContentBlock) (h : ConvPre prompt ms) :
    ConvPre prompt
      (ms ++ [assistantTurn bs, toolResultsTurn registry (toolCallsOf bs)]) := by
  obtain ⟨halt, hnext, hhead, hres⟩ := h
  refine ⟨?_, ?_, ?_, ?_⟩
  · rw [rolesAlternateFrom_append, halt, hnext]
    rfl
  · rw [List.length_append]
    rw [show (ms.length + [assistantTurn bs,
        toolResultsTurn registry (toolCallsOf bs)].length) = ms.length + 2 from rfl]
    rw [roleAt_add_two]
    exact hnext
  · exact head?_append_of_head? ms _ _ hhead
  · rw [show toolResultsAreUserRole
        (ms ++ [assistantTurn bs, toolResultsTurn registry (toolCallsOf bs)]) =
      (toolResultsAreUserRole ms &&
        toolResultsAreUserRole [assistantTurn bs,
          toolResultsTurn registry (toolCallsOf bs)]) from List.all_append]
    rw [hres]
    rfl

theorem convPre_append_assistant (prompt : String) (ms : List LLMMessage)
    (bs : List ContentBlock) (h : ConvPre prompt ms) :
    rolesAlternateFrom Role.user (ms ++ [assistantTurn bs]) = true ∧
    (ms ++ [assistantTurn bs]).head? =
      some { role := Role.user, content := MessageContent.str prompt } ∧
    toolResultsAreUserRole (ms ++ [assistantTurn bs]) = true := by
  obtain ⟨halt, hnext, hhead, hres⟩ := h
  refine ⟨?_, ?_, ?_⟩
  · rw [rolesAlternateFrom_append, halt, hnext]
    rfl
  · exact head?_append_of_head? ms _ _ hhead
  · rw [show toolResultsAreUserRole (ms ++ [assistantTurn bs]) =
      (toolResultsAreUserRole ms && toolResultsAreUserRole [assistantTurn bs]) from
      List.all_append]
    rw [hres]
    rfl

theorem runLoop_conv_invariant (llm : Provider) (registry : ToolExecutor) (prompt : String)
    (fuel : Nat) :
    ∀ s : LoopState, ConvPre prompt s.messages →
      rolesAlternateFrom Role.user (runLoop llm registry fuel s).messages = true ∧
      (runLoop llm registry fuel s).messages.head? =
        some { role := Role.user, content := MessageContent.str prompt } ∧
      toolResultsAreUserRole (runLoop llm registry fuel s).messages = true := by
  induction fuel with
  | zero =>
      intro s h
      exact ⟨h.1, h.2.2.1, h.2.2.2⟩
  | succ fuel ih =>
      intro s h
      cases hstop : isTerminalStop (llm s.messages).stopReason with
      | true =>
          rw [runLoop_succ_finished llm registry fuel s _ _
            (loopStep_terminal llm registry s hstop)]
          exact convPre_append_assistant prompt s.messages (llm s.messages).content h
      | false =>
          rw [runLoop_succ_next llm registry fuel s _
            (loopStep_nonterminal llm registry s hstop)]
          exact ih _ (convPre_append_pair prompt registry s.messages (llm s.messages).content h)

/-- Claim C9: throughout every loop invocation the conversation strictly
alternates roles starting with the single user turn carrying the task
prompt, tool results are encoded as user-role turns, and — because the
conversation only ever grows by appending — every state reachable by the
loop's step is a prefix of the final conversation, each of which alternates
as well (the quantifier over `take`). -/
theorem conversation_alternation_invariant (llm : Provider) (registry : ToolExecutor)
    (prompt : String) :
    (agenticLoop llm registry prompt).messages.head? =
      some { role := Role.user, content := MessageContent.str prompt } ∧
    rolesAlternateFrom Role.user (agenticLoop llm registry prompt).messages = true ∧
    (∀ n, rolesAlternateFrom Role.user
        ((agenticLoop llm registry prompt).messages.take n) = true) ∧
    toolResultsAreUserRole (agenticLoop llm registry prompt).messages = true := by
  have hpre : ConvPre prompt
      [{ role := Role.user, content := MessageContent.str prompt }] :=
    ⟨rfl, rfl, rfl, rfl⟩
  obtain ⟨h1, h2, h3⟩ := runLoop_conv_invariant llm registry prompt MAX_AGENT_TURNS
    { messages := [{ role := Role.user, content := MessageContent.str prompt }]
      dispatched := []
      calls := 0
      tokens := 0 } hpre
  exact ⟨h2, h1, fun n => rolesAlternateFrom_take _ _ n h1, h3⟩

theorem mergeSort_score_desc (l : List (Skill × Nat)) :
    List.Pairwise (fun a b : Skill × Nat => b.2 ≤ a.2)
      (l.mergeSort (fun a b => decide (b.2 ≤ a.2))) := by
  have h := @List.sorted_mergeSort (Skill × Nat) (fun a b => decide (b.2 ≤ a.2))
    (fun a b c h1 h2 => by
      rw [decide_eq_true_eq] at h1 h2 ⊢
      omega)
    (fun a b => by
      rw [Bool.or_eq_true, decide_eq_true_eq, decide_eq_true_eq]
      omega)
    l
  exact h.imp (fun hab => by
    rw [decide_eq_true_eq] at hab
    exact hab)

theorem mem_scored_facts (skills : List Skill) (task : AvailableTask) (p : Skill × Nat)
    (hp : p ∈ ((skills.filter (fun sk => missionMatches task sk)).map
        (fun sk => (sk, taskScore task sk))).filter (fun q => 0 < q.2)) :
    p.2 = taskScore task p.1 ∧ missionMatches task p.1 = true ∧ 0 < taskScore task p.1 := by
  rw [List.mem_filter] at hp
  obtain ⟨hmem, hpos⟩ := hp
  rw [List.mem_map] at hmem
  obtain ⟨sk, hsk, rfl⟩ := hmem
  rw [List.mem_filter] at hsk
  exact ⟨rfl, hsk.2, of_decide_eq_true hpos⟩

theorem selectSkillsForTask_eq (skills : List Skill) (task : AvailableTask)
    (h : skills.isEmpty = false) :
    selectSkillsForTask skills task =
      (((((skills.filter (fun sk => missionMatches task sk)).map
            (fun sk => (sk, taskScore task sk))).filter
          (fun p => 0 < p.2)).mergeSort (fun a b => decide (b.2 ≤ a.2))).take 2).map
        (fun p => p.1) := by
  unfold selectSkillsForTask
  rw [h]
  rfl

/-- Claim C10: skill selection returns at most two skills; every returned
skill passed the mission filter (mission `"all"` or the task's mission) and
has a strictly positive relevance score; and the returned skills appear in
non-increasing score order. -/
theorem selectSkillsForTask_spec (skills : List Skill) (task : AvailableTask) :
    (selectSkillsForTask skills task).length ≤ 2 ∧
    (∀ sk ∈ selectSkillsForTask skills task,
       (sk.meta.mission = "all" ∨ sk.meta.mission = task.missionSlug) ∧
       0 < taskScore task sk) ∧
    List.Pairwise (fun a b => b ≤ a)
      ((selectSkillsForTask skills task).map (taskScore task)) := by
  cases hempty : skills.isEmpty with
  | true =>
      have hnil : selectSkillsForTask skills task = [] := by
        unfold selectSkillsForTask
        rw [hempty]
        rfl
      rw [hnil]
      refine ⟨by simp, by simp, by simp⟩
  | false =>
      rw [selectSkillsForTask_eq skills task hempty]
      set scored := ((skills.filter (fun sk => missionMatches task sk)).map
          (fun sk => (sk, taskScore task sk))).filter (fun p => 0 < p.2) with hscored
      set sorted := scored.mergeSort (fun a b => decide (b.2 ≤ a.2)) with hsorted
      have hmemfacts : ∀ p ∈ sorted.take 2,
          p.2 = taskScore task p.1 ∧ missionMatches task p.1 = true ∧
            0 < taskScore task p.1 := by
        intro p hp
        have hp1 : p ∈ sorted := List.mem_of_mem_take hp
        have hp2 : p ∈ scored := by
          rw [hsorted] at hp1
          exact ((List.mergeSort_perm scored _).mem_iff).mp hp1
        rw [hscored] at hp2
        exact mem_scored_facts skills task p hp2
      refine ⟨?_, ?_, ?_⟩
      · rw [List.length_map]
        exact List.length_take_le 2 sorted
      · intro sk hsk
        rw [List.mem_map] at hsk
        obtain ⟨p, hp, rfl⟩ := hsk
        obtain ⟨_, hmis, hpos⟩ := hmemfacts p hp
        simp only [missionMatches, Bool.or_eq_true, beq_iff_eq] at hmis
        exact ⟨hmis, hpos⟩
      · rw [List.map_map, List.pairwise_map]
        have hsort : List.Pairwise (fun a b : Skill × Nat => b.2 ≤ a.2) sorted := by
          rw [hsorted]
          exact mergeSort_score_desc scored
        have htake : List.Pairwise (fun a b : Skill × Nat => b.2 ≤ a.2) (sorted.take 2) :=
          List.Pairwise.sublist (List.take_sublist 2 sorted) hsort
        refine List.Pairwise.imp_of_mem ?_ htake
        intro a b ha hb hab
        have hfa := (hmemfacts a ha).1
        have hfb := (hmemfacts b hb).1
        show taskScore task b.1 ≤ taskScore task a.1
        rw [← hfa, ← hfb]
        exact hab

unseal List.merge List.mergeSort in
theorem selectSkillsForTask_spec_witness :
    (selectSkillsForTask demoSkills demoTask).length ≤ 2 ∧
    ((demoSkill.meta.mission = "all" ∨ demoSkill.meta.mission = demoTask.missionSlug) ∧
      0 < taskScore demoTask demoSkill) :=
  ⟨(selectSkillsForTask_spec demoSkills demoTask).1,
   (selectSkillsForTask_spec demoSkills demoTask).2.1 demoSkill (by decide)⟩
